import Mathlib

/-!
Verification of the poker round state machine and hand-evaluation engine
embedded in the repository's poker mini-game component
(`src/components/SocialLink.jsx`, the `Poker` React component).

The JavaScript source is shallowly embedded:
* cards are a pair of an enumerated suit and an enumerated face value;
* JS numbers that can become `NaN`/`undefined` through the component's
  array-length bugs are modelled as `Option Int` (`none` = not-a-number;
  the source never compares two non-numbers for equality on a reachable
  path, so conflating `undefined` and `NaN` is observationally faithful);
* JS arrays are `List`s; reading past the end yields `none`
  (JS `undefined`), writing one slot past the end appends (JS behaviour);
* `Math.random()` draws and the Gemini network call are free inputs
  (explicit parameters), making every operation a pure function;
* React `useState`: functional updaters (`set(prev => ...)`) read the
  latest value, while plain reads inside one event-handler/effect body
  read the state captured at the start of that body.  Each operation
  below therefore threads two states: `s0`, the stale render snapshot,
  and the accumulating updated state.
-/

namespace Poker

/-- The four suits `['♠', '♥', '♦', '♣']` of the source's `suits` array. -/
inductive Suit where
  | spades | hearts | diamonds | clubs
deriving DecidableEq, Repr

/-- The thirteen face values `['A', 'K', ..., '2']` of the source's
`values` array. -/
inductive FaceValue where
  | ace | king | queen | jack | ten | nine | eight | seven
  | six | five | four | three | two
deriving DecidableEq, Repr

/-- A card `{ suit, value }` as built by `createDeck`. -/
structure Card where
  suit : Suit
  value : FaceValue
deriving DecidableEq, Repr

/-- `getCardValue`: the `valueMap` lookup (`'A' → 14, ..., '2' → 2`). -/
def getCardValue (c : Card) : Nat :=
  match c.value with
  | .ace => 14 | .king => 13 | .queen => 12 | .jack => 11
  | .ten => 10 | .nine => 9 | .eight => 8 | .seven => 7
  | .six => 6 | .five => 5 | .four => 4 | .three => 3 | .two => 2

/-- The source sorts card values with `.sort((a, b) => b - a)`: the
descending sort of a list of numbers.  Equal numbers are
indistinguishable, so every correct descending sort produces the same
list and an insertion sort is a faithful translation. -/
def insertionSortDesc (l : List Nat) : List Nat := l.insertionSort (· ≥ ·)

/-- The straight-detection loop
`for (i = 0; i <= uniqueValues.length - 5; i++) if (u[i] - u[i+4] === 4)`.
Windows shorter than five elements compare nothing, exactly like the
loop bound; `Nat` subtraction agrees with the JS `=== 4` test because a
negative JS difference is never `4` and truncated `Nat` subtraction is
then `0`. -/
def straightScan : List Nat → Bool
  | [] => false
  | a :: rest =>
    (match rest.drop 3 with
     | e :: _ => a - e == 4
     | [] => false) || straightScan rest

/-- The record `{ rank, name, high }` returned by the evaluator. -/
structure HandResult where
  rank : Int
  name : String
  high : Nat
deriving DecidableEq, Repr

/-- `evaluate5CardHand`: evaluates a 5-card hand (the source also calls
it on fewer than 5 cards pre-flop).  `high` is `values[0]`, the largest
card value; `headD 0` stands for JS `values[0]`, which is only
`undefined` on an empty input, an input no game path produces. -/
def evaluate5CardHand (hand : List Card) : HandResult :=
  let values := insertionSortDesc (hand.map getCardValue)
  let suitsL := hand.map Card.suit
  let uniqueValues := values.dedup
  let pairs := (uniqueValues.filter (fun v => values.count v == 2)).length
  let threeKind := uniqueValues.any (fun v => values.count v == 3)
  let fourKind := uniqueValues.any (fun v => values.count v == 4)
  let flush := suitsL.dedup.length == 1
  let straight :=
    if 5 ≤ uniqueValues.length then
      straightScan uniqueValues ||
        (uniqueValues.contains 14 && uniqueValues.contains 2 &&
         uniqueValues.contains 3 && uniqueValues.contains 4 &&
         uniqueValues.contains 5)
    else false
  let high := values.headD 0
  if straight && flush then ⟨8, "straight flush", high⟩
  else if fourKind then ⟨7, "four of a kind", high⟩
  else if threeKind && decide (0 < pairs) then ⟨6, "full house", high⟩
  else if flush then ⟨5, "flush", high⟩
  else if straight then ⟨4, "straight", high⟩
  else if threeKind then ⟨3, "three of a kind", high⟩
  else if pairs == 2 then ⟨2, "two pair", high⟩
  else if pairs == 1 then ⟨1, "pair", high⟩
  else ⟨0, "high card", high⟩

/-- `getCombinations(arr, k)` from `evaluateHand`, verbatim recursion. -/
def getCombinations : List α → Nat → List (List α)
  | _, 0 => [[]]
  | [], _ + 1 => []
  | x :: t, k + 1 => (getCombinations t k).map (x :: ·) ++ getCombinations t (k + 1)

/-- One iteration of `evaluateHand`'s best-hand loop: replace the
current best when the candidate has a strictly larger rank, or the same
rank and a strictly larger high card. -/
def betterHand (best r : HandResult) : HandResult :=
  if r.rank > best.rank then r
  else if r.rank == best.rank && r.high > best.high then r
  else best

/-- `evaluateHand(holeCards, community)`: fewer than 5 cards are
evaluated directly; otherwise the best of all C(n,5) combinations is
kept.  The source's initial accumulator is `{ rank: -1 }`; its missing
`name`/`high` fields are never read because every real evaluation has
rank ≥ 0 and wins the first comparison, so they are rendered as
`""`/`0`. -/
def evaluateHand (holeCards : List Card) (community : List Card) : HandResult :=
  let allCards := holeCards ++ community
  if allCards.length < 5 then evaluate5CardHand allCards
  else
    ((getCombinations allCards 5).map evaluate5CardHand).foldl betterHand ⟨-1, "", 0⟩

/-- `compareHands(hand1, hand2, community)`: category first, then the
single `high` value. -/
def compareHands (hand1 hand2 community : List Card) : Int :=
  let eval1 := evaluateHand hand1 community
  let eval2 := evaluateHand hand2 community
  if eval1.rank > eval2.rank then 1
  else if eval1.rank < eval2.rank then -1
  else if eval1.high > eval2.high then 1
  else if eval1.high < eval2.high then -1
  else 0

/-! ## JavaScript number semantics

The component's array-length bugs make some reads yield `undefined` and
some arithmetic yield `NaN`.  A JS numeric value is modelled as
`Option Int`: `none` stands for `NaN` (and for an `undefined` operand,
which behaves identically inside arithmetic and inside the one `!==`
comparison the component performs against a value that is always a
genuine number). -/

/-- A JavaScript number: `some n` is the integer `n`, `none` is `NaN`
(or an `undefined` operand). -/
abbrev JSNum := Option Int

/-- JS `+` (NaN-propagating). -/
def jadd : JSNum → JSNum → JSNum
  | some a, some b => some (a + b)
  | _, _ => none

/-- JS `-` (NaN-propagating). -/
def jsub : JSNum → JSNum → JSNum
  | some a, some b => some (a - b)
  | _, _ => none

/-- JS `*` (NaN-propagating). -/
def jmul : JSNum → JSNum → JSNum
  | some a, some b => some (a * b)
  | _, _ => none

/-- JS `Math.min` (returns NaN if either argument is NaN). -/
def jmin : JSNum → JSNum → JSNum
  | some a, some b => some (min a b)
  | _, _ => none

/-- JS `Math.max` (returns NaN if either argument is NaN). -/
def jmax : JSNum → JSNum → JSNum
  | some a, some b => some (max a b)
  | _, _ => none

/-- JS `>` (false whenever an operand is NaN). -/
def jgt : JSNum → JSNum → Bool
  | some a, some b => a > b
  | _, _ => false

/-- JS `<` (false whenever an operand is NaN). -/
def jlt : JSNum → JSNum → Bool
  | some a, some b => a < b
  | _, _ => false

/-- JS `>=` (false whenever an operand is NaN). -/
def jge : JSNum → JSNum → Bool
  | some a, some b => a ≥ b
  | _, _ => false

/-- JS `===` on numbers (false whenever an operand is NaN). -/
def jeqStrict : JSNum → JSNum → Bool
  | some a, some b => a == b
  | _, _ => false

/-- JS `!==` on numbers. -/
def jneq (a b : JSNum) : Bool := !(jeqStrict a b)

/-- Reading `l[i]` from a JS array of numbers: out-of-range gives
`undefined` (modelled as `none`, see above). -/
def jsIdx (l : List JSNum) (i : Nat) : JSNum := l.getD i none

/-- Writing `l[i] = v` on a JS array: in-range writes overwrite, a write
one-or-more slots past the end extends the array (intervening slots are
holes that read back as `undefined`). -/
def jsSet (l : List JSNum) (i : Nat) (v : JSNum) : List JSNum :=
  if i < l.length then l.set i v
  else l ++ List.replicate (i - l.length) none ++ [v]

/-! ## The poker component's game state

Only the fields the betting protocol reads or writes are retained;
presentation-only state (`message`, `showCards`, `actionLog`, chat and
agent-memory state, API status flags) is omitted.  Seat numbering is the
source's: seat 0 is the human, seats 1–4 are opponents 0–3. -/

/-- The `bettingStage` strings `'pre-flop' | 'flop' | 'turn' | 'river'`. -/
inductive BettingStage where
  | preflop | flop | turn | river
deriving DecidableEq, Repr, Inhabited

/-- The poker component's reactive state, one record per render. -/
structure PokerState where
  currentRound : Nat
  deck : List Card
  communityCards : List Card
  playerHand : List Card
  opponentHands : List (List Card)
  currentBet : JSNum
  playerChips : JSNum
  opponentChips : List JSNum
  pot : JSNum
  currentPlayer : Int
  bettingStage : BettingStage
  playerBetThisRound : JSNum
  opponentBetsThisRound : List JSNum
  foldedPlayers : List Bool
deriving DecidableEq, Repr, Inhabited

/-- `checkBetsEqual()`: true when at most one seat is unfolded, or when
every unfolded opponent's recorded per-stage bet strictly equals the
HUMAN's recorded per-stage bet (the human's bet is the reference even if
the human has folded; a missing or NaN record compares unequal). -/
def checkBetsEqual (folded : List Bool) (playerBetThisRound : JSNum)
    (oppBets : List JSNum) : Bool :=
  let activePlayers := folded.map (fun f => !f)
  if (activePlayers.filter (fun b => b)).length ≤ 1 then true
  else
    (List.range 4).all fun i =>
      !(activePlayers.getD (i + 1) false && jneq (jsIdx oppBets i) playerBetThisRound)

/-- Draw order of `newDeck.pop()` repeated `n` times: JS `Array.pop`
removes from the END of the array.  Returns the popped cards in pop
order (`none` for pops from an exhausted deck) and the remaining deck. -/
def popMany : Nat → List Card → List (Option Card) × List Card
  | 0, d => ([], d)
  | n + 1, d =>
    let c := d.getLast?
    let (cs, rest) := popMany n d.dropLast
    (c :: cs, rest)

/-- The contender records `{ index, hand, isPlayer, opponentIndex }`
built by `endRound`. -/
structure Contender where
  index : Nat
  hand : List Card
  isPlayer : Bool
  opponentIndex : Nat
deriving DecidableEq, Repr

/-- Head of `activePlayers.sort((a, b) => compareHands(b.hand, a.hand,
community))`: JS `Array.prototype.sort` is stable and `compareHands`
induces a total preorder, so the first element of the sorted array is
the earliest contender no later contender strictly beats — computed
here directly as a left fold that replaces the champion only on a
strict win. -/
def winnerOf (actives : List Contender) (community : List Card) : Option Contender :=
  match actives with
  | [] => none
  | c :: rest =>
    some (rest.foldl (fun w p => if compareHands p.hand w.hand community == 1 then p else w) c)

/-!  Every operation below takes two states: `s0` is the state captured
by the running event handler's / effect's closure (a React render
snapshot — plain reads and plain `setX(value)` calls see it), while `s`
is the state accumulated so far by this operation's updates (functional
`setX(prev => ...)` updaters see it).  An operation entered from the UI
has `s0 = s`. -/

/-- The `activePlayers` list `endRound` builds: the human first (if the
closure considers seat 0 unfolded), then each unfolded opponent. -/
def endRoundContenders (s0 : PokerState) : List Contender :=
  (if s0.foldedPlayers.getD 0 false then [] else [⟨0, s0.playerHand, true, 0⟩]) ++
  ((List.range 4).filterMap fun idx =>
    if s0.foldedPlayers.getD (idx + 1) false then none
    else some ⟨idx + 1, s0.opponentHands.getD idx [], false, idx⟩)

/-- `endRound()`: reveal, pick the winner among the seats the CLOSURE
considers unfolded, and add the CLOSURE's pot to the winner's stack
(the pot itself is not reset here — `nextRound` does that).
`setShowCards`/`setMessage` are presentation-only and omitted; the
`currentPlayer := -1` write happens before the award, and the award's
functional updater reads the accumulated state's chips. -/
def endRound (s0 s : PokerState) : PokerState :=
  match winnerOf (endRoundContenders s0) s0.communityCards with
  | none => { s with currentPlayer := -1 }
  | some w =>
    if w.isPlayer then
      { s with currentPlayer := -1, playerChips := jadd s.playerChips s0.pot }
    else
      let paid := jsSet s.opponentChips w.opponentIndex
        (jadd (jsIdx s.opponentChips w.opponentIndex) s0.pot)
      { s with currentPlayer := -1, opponentChips := paid }

/-- `nextBettingStage()`: zero the bet trackers — including the buggy
3-element reset `setOpponentBetsThisRound([0, 0, 0])` that drops the
fourth opponent's per-stage record — then burn and deal the next
community tranche, or run the showdown after the river. -/
def nextBettingStage (s0 s : PokerState) : PokerState :=
  match s0.bettingStage with
  | .preflop =>
    { s with currentBet := some 0, playerBetThisRound := some 0,
             opponentBetsThisRound := [some 0, some 0, some 0], currentPlayer := 0,
             communityCards := (((popMany 4 s0.deck).1).drop 1).reduceOption,
             deck := (popMany 4 s0.deck).2, bettingStage := .flop }
  | .flop =>
    { s with currentBet := some 0, playerBetThisRound := some 0,
             opponentBetsThisRound := [some 0, some 0, some 0], currentPlayer := 0,
             communityCards := s.communityCards ++ (((popMany 2 s0.deck).1).drop 1).reduceOption,
             deck := (popMany 2 s0.deck).2, bettingStage := .turn }
  | .turn =>
    { s with currentBet := some 0, playerBetThisRound := some 0,
             opponentBetsThisRound := [some 0, some 0, some 0], currentPlayer := 0,
             communityCards := s.communityCards ++ (((popMany 2 s0.deck).1).drop 1).reduceOption,
             deck := (popMany 2 s0.deck).2, bettingStage := .river }
  | .river =>
    endRound s0
      { s with currentBet := some 0, playerBetThisRound := some 0,
               opponentBetsThisRound := [some 0, some 0, some 0], currentPlayer := 0 }

/-- The `while (next <= 4 && foldedPlayers[next]) next++` loop of
`nextPlayer`, with explicit fuel so the kernel can evaluate it. -/
def skipFoldedAux (folded : List Bool) : Nat → Nat → Nat
  | 0, next => next
  | fuel + 1, next =>
    if next ≤ 4 ∧ folded.getD next false then skipFoldedAux folded fuel (next + 1)
    else next

/-- The loop increments `next` while `next ≤ 4`, so five iterations
always suffice. -/
def skipFolded (folded : List Bool) (next : Nat) : Nat :=
  skipFoldedAux folded 5 next

/-- `nextPlayer(lastPlayerIndex)`: end the hand if the closure sees a
single unfolded seat, otherwise advance to the next unfolded seat,
wrapping to a stage-completion check. -/
def nextPlayer (s0 s : PokerState) (lastPlayerIndex : Nat) : PokerState :=
  if (s0.foldedPlayers.filter (fun f => !f)).length == 1 then endRound s0 s
  else if lastPlayerIndex + 1 > 4 then
    if checkBetsEqual s0.foldedPlayers s0.playerBetThisRound s0.opponentBetsThisRound then
      nextBettingStage s0 s
    else { s with currentPlayer := 0 }
  else
    if skipFolded s0.foldedPlayers (lastPlayerIndex + 1) > 4 then
      if checkBetsEqual s0.foldedPlayers s0.playerBetThisRound s0.opponentBetsThisRound then
        nextBettingStage s0 s
      else
        match s0.foldedPlayers.findIdx? (fun f => !f) with
        | some firstActive => { s with currentPlayer := Int.ofNat firstActive }
        | none => endRound s0 s
    else { s with currentPlayer := Int.ofNat (skipFolded s0.foldedPlayers (lastPlayerIndex + 1)) }

/-- `startRound()`: fresh shuffled deck (the shuffle's random output is
the `newDeck` parameter), two hole cards per seat popped off the deck,
trackers reset, blinds 10/20 debited unconditionally from opponents 0
and 1 and the big blind from the human, `pot = 10 + 20 + 20`, action
starting at seat 2. -/
def startRound (newDeck : List Card) (s : PokerState) : PokerState :=
  let cards := (popMany 10 newDeck).1
  { s with
    deck := (popMany 10 newDeck).2,
    playerHand := (cards.take 2).reduceOption,
    opponentHands :=
      [((cards.drop 2).take 2).reduceOption, ((cards.drop 4).take 2).reduceOption,
       ((cards.drop 6).take 2).reduceOption, ((cards.drop 8).take 2).reduceOption],
    communityCards := [],
    bettingStage := .preflop,
    foldedPlayers := [false, false, false, false, false],
    currentBet := some 20,
    playerChips := jsub s.playerChips (some 20),
    opponentChips :=
      jsSet (jsSet s.opponentChips 0 (jsub (jsIdx s.opponentChips 0) (some 10)))
        1 (jsub (jsIdx s.opponentChips 1) (some 20)),
    pot := some (10 + 20 + 20),
    playerBetThisRound := some 20,
    opponentBetsThisRound := [some 10, some 20, some 0, some 0],
    currentPlayer := 2 }

/-- `playerFold()`. -/
def playerFold (s : PokerState) : PokerState :=
  let s1 := { s with foldedPlayers := s.foldedPlayers.set 0 true }
  nextPlayer s s1 0

/-- `playerCall()`: pay the difference up to the current bet, guarded by
`if (playerChips < toCall) return`. -/
def playerCall (s : PokerState) : PokerState :=
  let toCall := jsub s.currentBet s.playerBetThisRound
  if jlt s.playerChips toCall then s
  else
    let s1 := { s with playerChips := jsub s.playerChips toCall,
                       pot := jadd s.pot toCall,
                       playerBetThisRound := jadd s.playerBetThisRound toCall }
    nextPlayer s s1 0

/-- `playerRaise()`: raise to `max(currentBet * 2, 20)`, resetting the
opponents' per-stage records with the buggy 3-element literal
`setOpponentBetsThisRound([0, 0, 0])`. -/
def playerRaise (s : PokerState) : PokerState :=
  let raiseAmount := jmax (jmul s.currentBet (some 2)) (some 20)
  let toCall := jsub raiseAmount s.playerBetThisRound
  if jlt s.playerChips toCall then s
  else
    let s1 := { s with currentBet := raiseAmount,
                       playerChips := jsub s.playerChips toCall,
                       pot := jadd s.pot toCall,
                       playerBetThisRound := raiseAmount,
                       opponentBetsThisRound := [some 0, some 0, some 0] }
    nextPlayer s s1 0

/-- The decision extracted from the Opponent Decision Provider's result
inside `opponentAction` — a free input of the model (the provider is an
external, possibly-failing collaborator). -/
inductive OppDecision where
  /-- `result.action.toLowerCase() === 'fold'`. -/
  | dFold
  /-- `'call'`. -/
  | dCall
  /-- `'raise'`. -/
  | dRaise
  /-- an action string matching none of the three branches: no state
  change before `nextPlayer`. -/
  | dOther
  /-- any exception inside the `try` block (transport failure,
  `result.action.toLowerCase()` throwing on the key-less result shape,
  ...): runs the deterministic `catch` fallback. -/
  | dError
deriving DecidableEq, Repr

/-- `opponentAction(opponentIndex)` for the seat whose turn it is
(`opponentIndex = currentPlayer - 1`), given the provider's decision. -/
def opponentActionStep (s : PokerState) (d : OppDecision) : PokerState :=
  let opponentIndex : Nat := (s.currentPlayer - 1).toNat
  if s.foldedPlayers.getD (opponentIndex + 1) false then nextPlayer s s (opponentIndex + 1)
  else
    let chips := jsIdx s.opponentChips opponentIndex
    let betThisRound := jsIdx s.opponentBetsThisRound opponentIndex
    let toCall := jsub s.currentBet betThisRound
    match d with
    | .dFold =>
      let folded2 := s.foldedPlayers.set (opponentIndex + 1) true
      let s1 := { s with foldedPlayers := folded2 }
      let s2 := nextPlayer s s1 (opponentIndex + 1)
      -- when this fold leaves one unfolded seat the source also starts a
      -- 500 ms `endRound` timer that races the `nextPlayer` call above;
      -- this is one linearisation of that race (no theorem below
      -- depends on the order, and the timer's closure is `s`)
      if (folded2.filter (fun f => !f)).length == 1 then endRound s s2 else s2
    | .dCall =>
      let callAmount := jmin toCall chips
      let s1 :=
        if jgt callAmount (some 0) then
          { s with opponentChips := jsSet s.opponentChips opponentIndex (jsub chips callAmount),
                   pot := jadd s.pot callAmount }
        else s
      let bets2 := jsSet s1.opponentBetsThisRound opponentIndex
        (jadd (jsIdx s1.opponentBetsThisRound opponentIndex) callAmount)
      let s2 := { s1 with opponentBetsThisRound := bets2 }
      nextPlayer s s2 (opponentIndex + 1)
    | .dRaise =>
      let raiseAmount := jmax (jmul s.currentBet (some 2)) (some 20)
      let totalBet := jsub raiseAmount betThisRound
      let actualBet := jmin totalBet chips
      let chips2 := jsSet s.opponentChips opponentIndex (jsub chips actualBet)
      let s1 := { s with currentBet := raiseAmount, opponentChips := chips2,
                         pot := jadd s.pot actualBet }
      let bets2 := jsSet s1.opponentBetsThisRound opponentIndex raiseAmount
      let s2 := { s1 with opponentBetsThisRound := bets2 }
      -- then the extra reset pass and the early return (no nextPlayer)
      let bets3 := s2.opponentBetsThisRound.mapIdx
        (fun idx _ => if idx == opponentIndex then raiseAmount else some 0)
      { s2 with playerBetThisRound := some 0, opponentBetsThisRound := bets3,
                currentPlayer := 0 }
    | .dOther => nextPlayer s s (opponentIndex + 1)
    | .dError =>
      let handEval := evaluateHand (s.opponentHands.getD opponentIndex []) s.communityCards
      if jge chips toCall && decide (1 ≤ handEval.rank) then
        let callAmount := jmin toCall chips
        let s1 := { s with
          opponentChips := jsSet s.opponentChips opponentIndex (jsub chips callAmount),
          pot := jadd s.pot callAmount }
        let bets2 := jsSet s1.opponentBetsThisRound opponentIndex
          (jadd (jsIdx s1.opponentBetsThisRound opponentIndex) callAmount)
        let s2 := { s1 with opponentBetsThisRound := bets2 }
        nextPlayer s s2 (opponentIndex + 1)
      else
        let s1 := { s with foldedPlayers := s.foldedPlayers.set (opponentIndex + 1) true }
        nextPlayer s s1 (opponentIndex + 1)

/-- One observable action during a hand: a button press by the human or
one firing of the opponent-turn effect. -/
inductive Act where
  | pFold | pCall | pRaise
  | oppAct (d : OppDecision)
deriving DecidableEq, Repr

/-- `canPlayerAct()` minus the transient `isOpponentThinking` latch
(`gameState === 'playing'` is implicit: every state modelled here is a
mid-hand state). -/
def canPlayerAct (s : PokerState) : Bool :=
  s.currentPlayer == 0 && !(s.foldedPlayers.getD 0 false)

/-- The guarded transition function: the human's buttons render only
while `canPlayerAct()`, and the opponent-turn effect calls
`opponentAction(currentPlayer - 1)` only for seats 1–4. -/
def step (s : PokerState) : Act → Option PokerState
  | .pFold => if canPlayerAct s then some (playerFold s) else none
  | .pCall => if canPlayerAct s then some (playerCall s) else none
  | .pRaise => if canPlayerAct s then some (playerRaise s) else none
  | .oppAct d =>
    if 1 ≤ s.currentPlayer ∧ s.currentPlayer ≤ 4 then some (opponentActionStep s d)
    else none

/-- Run a sequence of actions, failing if any is illegal in its state. -/
def runSteps : PokerState → List Act → Option PokerState
  | s, [] => some s
  | s, a :: rest =>
    match step s a with
    | some t => runSteps t rest
    | none => none

/-- One legal action relates two states. -/
def stepRel (s t : PokerState) : Prop := ∃ a, step s a = some t

/-- All states reachable from `s` by legal actions within a hand
(`nextRound`/`startRound` fire only from the hand-boundary timers and
are not hand-internal actions). -/
def handReach : PokerState → PokerState → Prop := Relation.ReflTransGen stepRel

/-- The component's state right after `startGame()` resets chips and
before the first `startRound()`. -/
def startGameState : PokerState where
  currentRound := 1
  deck := []
  communityCards := []
  playerHand := []
  opponentHands := [[], [], [], []]
  currentBet := some 0
  playerChips := some 1000
  opponentChips := [some 1000, some 1000, some 1000, some 1000]
  pot := some 0
  currentPlayer := 0
  bettingStage := .preflop
  playerBetThisRound := some 0
  opponentBetsThisRound := [some 0, some 0, some 0, some 0]
  foldedPlayers := [false, false, false, false, false]

/-- `createDeck()`'s card enumeration (suit-major, `A` down to `2`)
before `shuffleDeck` permutes it; concrete traces below use this order
as one possible shuffle outcome. -/
def fullDeck : List Card :=
  [Suit.spades, .hearts, .diamonds, .clubs].flatMap fun st =>
    [FaceValue.ace, .king, .queen, .jack, .ten, .nine, .eight, .seven,
     .six, .five, .four, .three, .two].map fun v => { suit := st, value := v }

/-- `endGame()`'s human-win test: `playerChips === maxChips` AND
strictly more chips than opponents 0, 1 and 2 — opponent 3 is absent
from the strict comparisons. -/
def endGamePlayerWon (playerChips : JSNum) (opponentChips : List JSNum) : Bool :=
  let maxChips := opponentChips.foldl jmax playerChips
  jeqStrict playerChips maxChips &&
    jgt playerChips (jsIdx opponentChips 0) &&
    jgt playerChips (jsIdx opponentChips 1) &&
    jgt playerChips (jsIdx opponentChips 2)

/-- The commitment ledger the spec's pot invariant talks about: each
seat's hand-start stack minus its current stack, summed (in JS
arithmetic) over all five seats. -/
def committedSumFrom (startPlayer : JSNum) (startOpp : List JSNum) (s : PokerState) : JSNum :=
  (List.range 4).foldl
    (fun acc i => jadd acc (jsub (jsIdx startOpp i) (jsIdx s.opponentChips i)))
    (jsub startPlayer s.playerChips)

/-! ## The Opponent Decision Provider adapter

`callLLMWithRetry` / `getMockResponse` / the `opponentAction` decision
extraction.  `Math.random()` draws are an explicit stream of rationals
in `[0, 1)`; `JSON.parse` plus field access is a JS builtin, passed in
as an uninterpreted `jsonParse` function; each network attempt's
outcome is a free input. -/

/-- One opponent personality record. -/
structure Personality where
  name : String
  personality : String
  traits : List String
  decisionStyle : String
deriving DecidableEq, Repr

/-- The `OPPONENT_PERSONALITIES` table (prose fields abridged to the
trait data the decision logic reads; only `traits` is ever consulted by
`getMockResponse`). -/
def OPPONENT_PERSONALITIES : List Personality :=
  [⟨"Alex", "aggressive and confident", ["aggressive", "confident", "bluffing", "competitive"],
    "tends to raise with decent hands"⟩,
   ⟨"Sam", "cautious and analytical", ["cautious", "analytical", "strategic", "polite"],
    "only bets with strong hands"⟩,
   ⟨"Jordan", "wild and unpredictable", ["unpredictable", "bold", "friendly", "chaotic"],
    "makes random-seeming moves"⟩,
   ⟨"Casey", "balanced and observant", ["balanced", "observant", "adaptive", "professional"],
    "plays the player, not just the cards"⟩]

/-- The `gameContext` object assembled before each provider call. -/
structure GameContext where
  round : Nat
  stage : String
  communityCards : List Card
  chips : JSNum
  pot : JSNum
  currentBet : JSNum
  betThisRound : JSNum
  hand : List Card
  handStrength : HandResult
deriving DecidableEq, Repr

/-- The record `getMockResponse` returns. -/
structure MockResponse where
  thought_process : String
  strategy : String
  action : String
  chat : String
  isAI : Bool
deriving DecidableEq, Repr

/-- One `Math.random()` draw from the stream (a stream is always long
enough in reality; an exhausted model stream draws `0`). -/
def drawRand : List ℚ → ℚ × List ℚ
  | [] => (0, [])
  | q :: rest => (q, rest)

/-- `Math.floor(Math.random() * n)` for a draw `q`. -/
def floorIdx (q : ℚ) (n : Nat) : Nat := (Int.floor (q * n)).toNat

/-- The `aggressiveResponses` table. -/
def aggressiveResponses : List String :=
  ["I\x27m all in on this one!", "You think you can scare me? Try harder.",
   "Let me show you how it\x27s done.", "This hand is mine, calling it now.",
   "I\x27ve got a feeling about this board.", "Time to make you pay to see my cards."]

/-- The `cautiousResponses` table. -/
def cautiousResponses : List String :=
  ["This board makes me nervous...", "Let me calculate the odds here.",
   "I need to be careful with this one.", "Not liking what I\x27m seeing on the board.",
   "The pot odds aren\x27t in my favor.", "I\x27ll proceed cautiously."]

/-- The `unpredictableResponses` table. -/
def unpredictableResponses : List String :=
  ["Screw it, let\x27s gamble!", "My gut says go for it!", "Why not? Life\x27s too short!",
   "This could be fun or terrible.", "I\x27m feeling chaotic energy right now.",
   "Let\x27s shake things up!"]

/-- `getMockResponse(messages, personality, gameContext)`: the local
fallback decision.  Each `Math.random()` call pops one draw from `rng`
in the order JS evaluates them (`&&` and `?:` short-circuit, so guarded
draws happen only when their guard is reached).  The `reasoning`
variable of the source is computed (consuming draws) but dead, exactly
as in the source; `messages` is likewise read only into the dead
`lastMessage`. -/
def getMockResponse (messages : List String) (personality : Personality)
    (gameContext : GameContext) (rng : List ℚ) : MockResponse :=
  let _lastMessage := messages.getLastD ""
  let handEval := gameContext.handStrength
  let traits := personality.traits
  let communityCards := gameContext.communityCards
  let stage := gameContext.stage
  let actRes : String × String × List ℚ :=
    if handEval.rank ≥ 4 then
      let action := if traits.contains "cautious" then "[CALL]" else "[RAISE]"
      if traits.contains "aggressive" then
        let (q, rng1) := drawRand rng
        (action, aggressiveResponses.getD (floorIdx q 6) "", rng1)
      else (action, "", rng)
    else if handEval.rank ≥ 2 then
      if stage == "river" then
        ((if traits.contains "aggressive" then "[RAISE]" else "[CALL]"), "", rng)
      else if traits.contains "cautious" then ("[CALL]", "", rng)
      else
        let (q, rng1) := drawRand rng
        ((if q > (1 : ℚ) / 2 then "[RAISE]" else "[CALL]"), "", rng1)
    else if handEval.rank == 1 then
      if 3 ≤ communityCards.length then
        let (q, rng1) := drawRand rng
        if q > (3 : ℚ) / 5 then
          if traits.contains "cautious" then
            let (q2, rng2) := drawRand rng1
            ("[FOLD]", cautiousResponses.getD (floorIdx q2 6) "", rng2)
          else ("[FOLD]", "", rng1)
        else ((if traits.contains "cautious" then "[FOLD]" else "[CALL]"), "", rng1)
      else ((if traits.contains "cautious" then "[FOLD]" else "[CALL]"), "", rng)
    else
      if handEval.high ≥ 13 then
        if traits.contains "aggressive" then
          let (q, rng1) := drawRand rng
          ((if q > (1 : ℚ) / 2 then "[CALL]" else "[FOLD]"), "", rng1)
        else ("[FOLD]", "", rng)
      else
        if traits.contains "unpredictable" || traits.contains "aggressive" then
          let (q, rng1) := drawRand rng
          if q > (4 : ℚ) / 5 then ("[RAISE]", "Bluffing with nothing!", rng1)
          else if traits.contains "unpredictable" then
            let (q2, rng2) := drawRand rng1
            ((if q2 > (7 : ℚ) / 10 then "[CALL]" else "[FOLD]"), "", rng2)
          else ("[FOLD]", "", rng1)
        else if traits.contains "unpredictable" then
          let (q2, rng1) := drawRand rng
          ((if q2 > (7 : ℚ) / 10 then "[CALL]" else "[FOLD]"), "", rng1)
        else ("[FOLD]", "", rng)
  let action := actRes.1
  let _reasoning := actRes.2.1
  let rngA := actRes.2.2
  let (qt, rngB) := drawRand rngA
  let trait := traits.getD (floorIdx qt traits.length) ""
  let (qr, _) := drawRand rngB
  let response :=
    if trait == "aggressive" then aggressiveResponses.getD (floorIdx qr 6) ""
    else if trait == "cautious" then cautiousResponses.getD (floorIdx qr 6) ""
    else unpredictableResponses.getD (floorIdx qr 6) ""
  -- the source's single-occurrence `.replace('[', '').replace(']', '')`
  { thought_process := "Mock AI thinking...",
    strategy := "Basic heuristic",
    action := (action.replace "[" "").replace "]" "",
    chat := response,
    isAI := false }

/-- Does the character list start with the pattern? -/
def startsWithChars (p l : List Char) : Bool := l.take p.length == p

/-- The regex fallback `text.match(/\[(FOLD|CALL|RAISE)\]/)`: leftmost
bracketed action keyword, if any (the three alternatives can never
match at the same position, so alternation order is irrelevant). -/
def findActionTag : List Char → Option String
  | [] => none
  | c :: rest =>
    if startsWithChars "[FOLD]".toList (c :: rest) then some "FOLD"
    else if startsWithChars "[CALL]".toList (c :: rest) then some "CALL"
    else if startsWithChars "[RAISE]".toList (c :: rest) then some "RAISE"
    else findActionTag rest

/-- `text.match(/\[(FOLD|CALL|RAISE)\]/)` on a string. -/
def extractActionTag (s : String) : Option String := findActionTag s.toList

/-- Consume a lazily-matched bracket span: everything up to and
including the first `]`, provided no newline intervenes (`.` in the
source regex does not match newlines). -/
def spanToClose : List Char → Option (List Char)
  | [] => none
  | c :: rest =>
    if c == ']' then some rest
    else if c.toNat == 10 then none
    else spanToClose rest

/-- `text.replace(/\[.*?\]/g, '')`, fuelled by the input length (each
step consumes at least one character). -/
def stripTagsAux : Nat → List Char → List Char
  | 0, _ => []
  | _, [] => []
  | fuel + 1, c :: rest =>
    if c == '[' then
      match spanToClose rest with
      | some rest2 => stripTagsAux fuel rest2
      | none => c :: stripTagsAux fuel rest
    else c :: stripTagsAux fuel rest

/-- `text.replace(/\[.*?\]/g, '')` on a string. -/
def stripBracketTags (s : String) : String :=
  String.mk (stripTagsAux s.toList.length s.toList)

/-- The four fields the code reads off a successfully parsed JSON
response (any of them may be absent from the parsed object). -/
structure ParsedLLM where
  thought_process : Option String
  strategy : Option String
  action : Option String
  chat : Option String
deriving DecidableEq, Repr

/-- What `callLLMWithRetry` resolves to.  The field sets of the
source's three result shapes differ, hence the `Option` fields: the
missing-key path returns `{ response, isAI }` (every other field
`undefined`), the parse paths return spread fields with no `response`. -/
structure LLMResult where
  response : Option MockResponse
  thought_process : Option String
  strategy : Option String
  action : Option String
  chat : Option String
  isAI : Bool
deriving DecidableEq, Repr

/-- The outcome of one `fetch` attempt: either any thrown error
(transport failure, `data.error` set, or empty candidate text — all
reach the `catch`) or the candidate text. -/
inductive AttemptOutcome where
  | throwErr
  | text (s : String)
deriving DecidableEq, Repr

/-- `{ ...getMockResponse(...), isAI: false }`. -/
def mockToResult (m : MockResponse) : LLMResult :=
  ⟨none, some m.thought_process, some m.strategy, some m.action, some m.chat, false⟩

/-- The `for (attempt = 1; attempt <= retries; attempt++)` body of
`callLLMWithRetry`, with `fuel` counting the attempts left (so
`fuel = 0` is the unreachable-in-practice `return` after the loop). -/
def llmAttemptLoop (jsonParse : String → Option ParsedLLM) (mock : MockResponse) :
    List AttemptOutcome → Nat → LLMResult
  | _, 0 => mockToResult mock
  | outcomes, fuel + 1 =>
    match outcomes.headD .throwErr with
    | .text s =>
      match jsonParse s with
      | some parsed =>
        ⟨none, parsed.thought_process, parsed.strategy, parsed.action, parsed.chat, true⟩
      | none =>
        ⟨none, some "Failed to parse thought.", some "Unknown",
         some ((extractActionTag s).getD "CALL"),
         some (stripBracketTags s).trim, true⟩
    | .throwErr =>
      if fuel = 0 then mockToResult mock
      else llmAttemptLoop jsonParse mock outcomes.tail fuel

/-- `callLLMWithRetry(messages, personality, gameContext, retries = 3)`:
no API key short-circuits to the `{ response: mock, isAI: false }`
wrapper WITHOUT an `action` field; otherwise up to `retries` attempts,
each either yielding candidate text (JSON-parsed, with the regex
fallback on parse failure) or throwing (the last throw returns the
spread mock). -/
def callLLMWithRetry (apiKey : Option String) (jsonParse : String → Option ParsedLLM)
    (messages : List String) (personality : Personality) (gameContext : GameContext)
    (rng : List ℚ) (outcomes : List AttemptOutcome) (retries : Nat) : LLMResult :=
  match apiKey with
  | none =>
    { response := some (getMockResponse messages personality gameContext rng),
      thought_process := none, strategy := none, action := none, chat := none,
      isAI := false }
  | some _ =>
    llmAttemptLoop jsonParse (getMockResponse messages personality gameContext rng)
      outcomes retries

/-- `opponentAction`'s reading of the provider result:
`result.action.toLowerCase()` THROWS when `action` is absent
(`undefined`), landing in the `catch` fallback; otherwise the
lower-cased string selects a branch (an unrecognised string selects
none). -/
def toDecision (r : LLMResult) : OppDecision :=
  match r.action with
  | none => .dError
  | some a =>
    let al := a.toLower
    if al == "fold" then .dFold
    else if al == "call" then .dCall
    else if al == "raise" then .dRaise
    else .dOther

/-! ## Derived notions used by the theorems below -/

/-- The tiebreak key `(rank, high)` of an evaluation result; `name` is
determined by `rank`, so this key carries all comparison-relevant
data. -/
def hkey (r : HandResult) : Int × Nat := (r.rank, r.high)

/-- The lexicographic maximum on `(rank, high)` keys implemented by one
iteration of `evaluateHand`'s loop (ties keep the left argument). -/
def kmax (a b : Int × Nat) : Int × Nat :=
  if a.1 < b.1 ∨ (b.1 = a.1 ∧ a.2 < b.2) then b else a

/-- The `name` string `evaluate5CardHand` pairs with each rank. -/
def nameOfRank (r : Int) : String :=
  if r = 8 then "straight flush" else if r = 7 then "four of a kind"
  else if r = 6 then "full house" else if r = 5 then "flush"
  else if r = 4 then "straight" else if r = 3 then "three of a kind"
  else if r = 2 then "two pair" else if r = 1 then "pair"
  else if r = 0 then "high card" else ""

/-- The canonical result record determined by a tiebreak key. -/
def canonRes (k : Int × Nat) : HandResult := ⟨k.1, nameOfRank k.1, k.2⟩

/-- The deck size `startRound`'s 42 remaining cards shrink to at each
stage: 4 more gone at the flop (burn + 3), 2 at the turn, 2 at the
river. -/
def stageDeckLen : BettingStage → Nat
  | .preflop => 42
  | .flop => 38
  | .turn => 36
  | .river => 34

/-- Mid-hand deck invariant: the deck length is determined by the
betting stage. -/
def DeckInv (s : PokerState) : Prop := s.deck.length = stageDeckLen s.bettingStage

/-! ### Concrete hands (decision inputs chosen freely, as the provider
is a free input; `fullDeck` is one possible shuffle outcome)

`allCallPreflopActs`: seats 2, 3 and 4 call, the wrap-around check still
sees the small blind short, so the human checks, seat 1 completes to 20
and seats 2–4 check; the second wrap finds all recorded bets equal and
deals the flop. -/
def allCallPreflopActs : List Act :=
  [.oppAct .dCall, .oppAct .dCall, .oppAct .dCall, .pCall,
   .oppAct .dCall, .oppAct .dCall, .oppAct .dCall, .oppAct .dCall]

/-- The state at the start of the flop after `allCallPreflopActs`:
pot 100, every stack 980, per-stage records reset to `[0, 0, 0]`. -/
def flopStartState : PokerState :=
  (runSteps (startRound fullDeck startGameState) allCallPreflopActs).getD startGameState

/-- Continue from the flop: the human and seats 1–3 check, then seat 4
raises; seat 4's per-stage record read is `undefined`, so its chip
debit and the pot become NaN. -/
def potNaNActs : List Act :=
  allCallPreflopActs ++ [.pCall, .oppAct .dCall, .oppAct .dCall, .oppAct .dCall, .oppAct .dRaise]

/-- The state right after seat 4's flop raise. -/
def potNaNState : PokerState :=
  (runSteps (startRound fullDeck startGameState) potNaNActs).getD startGameState

/-- Continue from the flop: the human and all four opponents check
(zero to call); seat 4's record becomes NaN and the completion check
keeps failing although nobody has moved a chip this stage. -/
def betsStuckActs : List Act :=
  allCallPreflopActs ++ [.pCall, .oppAct .dCall, .oppAct .dCall, .oppAct .dCall, .oppAct .dCall]

/-- The state after that no-chip flop lap. -/
def betsStuckState : PokerState :=
  (runSteps (startRound fullDeck startGameState) betsStuckActs).getD startGameState

/-- A full hand to the river: seat 4 folds pre-flop (a hand with the
fourth opponent still active can never pass a post-flop completion
check, see `c2`), everyone else calls/checks every street. -/
def burnActs : List Act :=
  [.oppAct .dCall, .oppAct .dCall, .oppAct .dFold, .pCall,
   .oppAct .dCall, .oppAct .dCall, .oppAct .dCall,
   .pCall, .oppAct .dCall, .oppAct .dCall, .oppAct .dCall,
   .pCall, .oppAct .dCall, .oppAct .dCall, .oppAct .dCall]

/-- The state just after the river is dealt on that hand. -/
def burnState : PokerState :=
  (runSteps (startRound fullDeck startGameState) burnActs).getD startGameState

/-!
# Theorems

Helper lemmas first, then one theorem per claim (with its witness or
counterexample where required).
-/

/-- The descending sort permutes its input. -/
theorem insertionSortDesc_perm (l : List Nat) : (insertionSortDesc l).Perm l :=
  List.perm_insertionSort _ l

/-- The descending sort sorts. -/
theorem insertionSortDesc_sorted (l : List Nat) : List.Sorted (· ≥ ·) (insertionSortDesc l) :=
  List.sorted_insertionSort _ l

/-- Permuted inputs have the same descending sort. -/
theorem insertionSortDesc_eq_of_perm {l l' : List Nat} (p : l.Perm l') :
    insertionSortDesc l = insertionSortDesc l' := by
  haveI : IsAntisymm Nat (· ≥ ·) := ⟨fun a b h1 h2 => le_antisymm h2 h1⟩
  exact List.eq_of_perm_of_sorted
    ((insertionSortDesc_perm l).trans (p.trans (insertionSortDesc_perm l').symm))
    (insertionSortDesc_sorted l) (insertionSortDesc_sorted l')

/-- `evaluate5CardHand` only consumes the sorted value list and the
number of distinct suits, so it is invariant under permutation of its
five (or fewer) cards. -/
theorem evaluate5CardHand_perm {h h' : List Card} (p : h.Perm h') :
    evaluate5CardHand h = evaluate5CardHand h' := by
  have hv : insertionSortDesc (h.map getCardValue) = insertionSortDesc (h'.map getCardValue) :=
    insertionSortDesc_eq_of_perm (p.map _)
  have hs : (h.map Card.suit).dedup.length = (h'.map Card.suit).dedup.length :=
    ((p.map _).dedup).length_eq
  simp only [evaluate5CardHand]
  rw [hv, hs]

/-- `getCombinations` produces exactly `C(n, k)` subsets. -/
theorem length_getCombinations (l : List α) :
    ∀ k, (getCombinations l k).length = l.length.choose k := by
  induction l with
  | nil => intro k; cases k <;> simp [getCombinations]
  | cons x t ih =>
    intro k
    cases k with
    | zero => simp [getCombinations]
    | succ k => simp [getCombinations, ih, Nat.choose_succ_succ, Nat.add_comm]

/-- Mapping a permutation-respecting function over the `k`-combinations
of permuted lists yields permuted result lists (each `k`-subset of one
list matches a reordering of a `k`-subset of the other). -/
theorem getCombinations_map_perm {α β : Type _} :
    ∀ {l l' : List α}, l.Perm l' →
      ∀ (f : List α → β), (∀ c c', c.Perm c' → f c = f c') →
        ∀ k, ((getCombinations l k).map f).Perm ((getCombinations l' k).map f) := by
  intro l l' p
  induction p with
  | nil => intro f hf k; exact List.Perm.refl _
  | cons x p ih =>
    intro f hf k
    cases k with
    | zero => exact List.Perm.refl _
    | succ k =>
      simp only [getCombinations, List.map_append, List.map_map]
      exact (ih _ (fun c c' pc => hf _ _ (pc.cons x)) k).append (ih f hf (k + 1))
  | swap x y t =>
    intro f hf k
    match k with
    | 0 => exact List.Perm.refl _
    | 1 =>
      simp only [getCombinations, List.map_append, List.map_map, List.map_nil,
        List.map_cons, List.nil_append, List.cons_append]
      exact List.Perm.swap _ _ _
    | k + 2 =>
      simp only [getCombinations, List.map_append, List.map_map, List.append_assoc]
      have hA : List.map (f ∘ ((fun c => y :: c) ∘ fun c => x :: c)) (getCombinations t k)
          = List.map (f ∘ ((fun c => x :: c) ∘ fun c => y :: c)) (getCombinations t k) := by
        apply List.map_congr_left
        intro c _
        exact hf _ _ (List.Perm.swap x y c)
      rw [hA]
      apply List.Perm.append_left
      exact List.perm_append_comm_assoc _ _ _
  | trans p1 p2 ih1 ih2 =>
    intro f hf k
    exact (ih1 f hf k).trans (ih2 f hf k)

/-- Every `evaluate5CardHand` result is determined by its `(rank, high)`
key (the `name` is a function of the rank). -/
theorem evaluate5CardHand_canon (h : List Card) :
    evaluate5CardHand h = canonRes (hkey (evaluate5CardHand h)) := by
  simp only [evaluate5CardHand]
  split_ifs <;> rfl

/-- One loop iteration of `evaluateHand` computes the lexicographic key
maximum on canonical records. -/
theorem betterHand_eq_kmax (b r : HandResult)
    (hb : b = canonRes (hkey b)) (hr : r = canonRes (hkey r)) :
    betterHand b r = canonRes (kmax (hkey b) (hkey r)) := by
  unfold betterHand kmax hkey
  by_cases h1 : b.rank < r.rank
  · rw [if_pos (by simpa using h1), if_pos (Or.inl h1)]
    exact hr
  · rw [if_neg (by simpa using h1)]
    by_cases h2 : r.rank = b.rank ∧ b.high < r.high
    · rw [if_pos (by simp [h2.1, h2.2]), if_pos (Or.inr h2)]
      exact hr
    · rw [if_neg (by simpa using h2),
          if_neg (by rintro (h | ⟨he, hh⟩); exacts [h1 h, h2 ⟨he, hh⟩])]
      exact hb

/-- The best-hand loop over canonical records equals the canonical
record of the fold of key maxima. -/
theorem foldl_betterHand_canon :
    ∀ (L : List HandResult) (b : HandResult), b = canonRes (hkey b) →
      (∀ r ∈ L, r = canonRes (hkey r)) →
      L.foldl betterHand b = canonRes (L.foldl (fun k r => kmax k (hkey r)) (hkey b)) := by
  intro L
  induction L with
  | nil => intro b hb _; simpa using hb
  | cons r t ih =>
    intro b hb hL
    simp only [List.foldl_cons]
    rw [betterHand_eq_kmax b r hb (hL r (List.mem_cons_self r t))]
    rw [ih _ rfl (fun x hx => hL x (List.mem_cons_of_mem r hx))]
    rfl

/-- The key maximum is right-commutative, so its fold is
order-independent. -/
theorem kmax_right_comm (z a b : Int × Nat) : kmax (kmax z a) b = kmax (kmax z b) a := by
  rcases z with ⟨z1, z2⟩; rcases a with ⟨a1, a2⟩; rcases b with ⟨b1, b2⟩
  simp only [kmax]
  split_ifs <;>
    first
      | rfl
      | (simp only [Prod.mk.injEq]
         simp only [not_or, not_and, not_lt, Prod.mk.injEq] at *
         omega)

/-- C8: the best-hand evaluator is a pure function of the multiset of
its input cards — for any two hole/community splits whose concatenated
card lists are permutations of each other (in particular, for any
reordering of a fixed 7-card input), `evaluateHand` returns the
identical result record (same category, same tiebreak value); identical
inputs trivially give identical outputs since `evaluateHand` is a
function. -/
theorem c8_evaluateHand_perm_invariant (holeCards community holeCards2 community2 : List Card)
    (hp : (holeCards ++ community).Perm (holeCards2 ++ community2)) :
    evaluateHand holeCards community = evaluateHand holeCards2 community2 := by
  unfold evaluateHand
  have hlen := hp.length_eq
  by_cases h5 : (holeCards ++ community).length < 5
  · rw [if_pos h5, if_pos (hlen ▸ h5)]
    exact evaluate5CardHand_perm hp
  · rw [if_neg h5, if_neg (hlen ▸ h5)]
    have hperm := getCombinations_map_perm hp evaluate5CardHand
      (fun c c' pc => evaluate5CardHand_perm pc) 5
    have hcanon1 : ∀ r ∈ (getCombinations (holeCards ++ community) 5).map evaluate5CardHand,
        r = canonRes (hkey r) := by
      intro r hr
      obtain ⟨c, _, rfl⟩ := List.mem_map.mp hr
      exact evaluate5CardHand_canon c
    have hcanon2 : ∀ r ∈ (getCombinations (holeCards2 ++ community2) 5).map evaluate5CardHand,
        r = canonRes (hkey r) := by
      intro r hr
      obtain ⟨c, _, rfl⟩ := List.mem_map.mp hr
      exact evaluate5CardHand_canon c
    rw [foldl_betterHand_canon _ _ rfl hcanon1, foldl_betterHand_canon _ _ rfl hcanon2]
    congr 1
    exact hperm.foldl_eq' (fun x _ y _ z => kmax_right_comm z (hkey x) (hkey y)) _

/-- C8 witness: a concrete 7-card input evaluated under two different
orders (and a different hole/community split) gives the same record. -/
theorem c8_witness :
    ([Card.mk .spades .king, Card.mk .hearts .king] ++
      [Card.mk .diamonds .five, Card.mk .clubs .four, Card.mk .spades .three,
       Card.mk .hearts .nine, Card.mk .clubs .nine]).Perm
      ([Card.mk .clubs .nine, Card.mk .hearts .nine, Card.mk .spades .three] ++
        [Card.mk .clubs .four, Card.mk .diamonds .five, Card.mk .hearts .king,
         Card.mk .spades .king]) ∧
    evaluateHand [Card.mk .spades .king, Card.mk .hearts .king]
      [Card.mk .diamonds .five, Card.mk .clubs .four, Card.mk .spades .three,
       Card.mk .hearts .nine, Card.mk .clubs .nine] =
    evaluateHand [Card.mk .clubs .nine, Card.mk .hearts .nine, Card.mk .spades .three]
      [Card.mk .clubs .four, Card.mk .diamonds .five, Card.mk .hearts .king,
       Card.mk .spades .king] :=
  ⟨by decide, c8_evaluateHand_perm_invariant _ _ _ _ (by decide)⟩

/-- C4 counterexample: the concrete mixed-suit wheel A♠ 2♥ 3♦ 4♣ 5♠ is
classified as a straight, but its recorded tiebreak high card is 14
(the ace heads the descending sort), not 5 as the claim states. -/
theorem c4_counterexample :
    evaluate5CardHand
        [Card.mk .spades .ace, Card.mk .hearts .two, Card.mk .diamonds .three,
         Card.mk .clubs .four, Card.mk .spades .five] =
      ⟨4, "straight", 14⟩ ∧
    (evaluate5CardHand
        [Card.mk .spades .ace, Card.mk .hearts .two, Card.mk .diamonds .three,
         Card.mk .clubs .four, Card.mk .spades .five]).high ≠ 5 := by
  decide

/-- C4 amended: every 5-card wheel input (value multiset
{A, 5, 4, 3, 2}, suits not all equal) is classified as a straight — not
as an ace-high hand — but its tiebreak high is recorded as 14 (the
ace), not 5. -/
theorem c4_amended (hand : List Card)
    (hv : (hand.map getCardValue).Perm [14, 5, 4, 3, 2])
    (hs : (hand.map Card.suit).dedup.length ≠ 1) :
    evaluate5CardHand hand = ⟨4, "straight", 14⟩ := by
  have h1 : insertionSortDesc (hand.map getCardValue) = [14, 5, 4, 3, 2] := by
    rw [insertionSortDesc_eq_of_perm hv]
    decide
  have h2 : ((hand.map Card.suit).dedup.length == 1) = false := by
    simpa using hs
  simp only [evaluate5CardHand, h1, h2]
  decide

/-- C4 witness: the amended statement applied to the concrete wheel
2♣ A♠ 4♦ 3♥ 5♠. -/
theorem c4_amended_witness :
    (([Card.mk .clubs .two, Card.mk .spades .ace, Card.mk .diamonds .four,
       Card.mk .hearts .three, Card.mk .spades .five].map getCardValue).Perm
        [14, 5, 4, 3, 2]) ∧
    ([Card.mk .clubs .two, Card.mk .spades .ace, Card.mk .diamonds .four,
      Card.mk .hearts .three, Card.mk .spades .five].map Card.suit).dedup.length ≠ 1 ∧
    evaluate5CardHand
        [Card.mk .clubs .two, Card.mk .spades .ace, Card.mk .diamonds .four,
         Card.mk .hearts .three, Card.mk .spades .five] = ⟨4, "straight", 14⟩ :=
  ⟨by decide, by decide, c4_amended _ (by decide) (by decide)⟩

/-- C5 counterexample: a pair of Kings (kickers 5, 4, 3) LOSES to a pair
of 2s with an ace kicker — both evaluate to the pair category, yet
`compareHands` returns −1 — refuting "a pair of Kings beats a pair of
2s regardless of the kickers". -/
theorem c5_counterexample :
    (evaluateHand [Card.mk .spades .king, Card.mk .hearts .king, Card.mk .diamonds .five,
        Card.mk .clubs .four, Card.mk .spades .three] []).rank = 1 ∧
    (evaluateHand [Card.mk .spades .two, Card.mk .hearts .two, Card.mk .diamonds .ace,
        Card.mk .clubs .seven, Card.mk .spades .six] []).rank = 1 ∧
    compareHands
      [Card.mk .spades .king, Card.mk .hearts .king, Card.mk .diamonds .five,
       Card.mk .clubs .four, Card.mk .spades .three]
      [Card.mk .spades .two, Card.mk .hearts .two, Card.mk .diamonds .ace,
       Card.mk .clubs .seven, Card.mk .spades .six] [] = -1 := by
  decide

/-- C5 amended: for two hands of the same category the comparison is
decided solely by the single highest card value among each best hand's
five cards (`high`), not by the rank(s) forming the category — greater
`high` wins, equal `high` ties. -/
theorem c5_amended (hand1 hand2 community : List Card)
    (h : (evaluateHand hand1 community).rank = (evaluateHand hand2 community).rank) :
    (compareHands hand1 hand2 community = 1 ↔
      (evaluateHand hand2 community).high < (evaluateHand hand1 community).high) ∧
    (compareHands hand1 hand2 community = 0 ↔
      (evaluateHand hand1 community).high = (evaluateHand hand2 community).high) := by
  unfold compareHands
  rw [if_neg (by omega), if_neg (by omega)]
  rcases Nat.lt_trichotomy (evaluateHand hand2 community).high
      (evaluateHand hand1 community).high with hl | he | hg
  · rw [if_pos hl]
    exact ⟨⟨fun _ => hl, fun _ => rfl⟩, ⟨fun hx => by omega, fun hx => by omega⟩⟩
  · rw [if_neg (by omega), if_neg (by omega)]
    exact ⟨⟨fun hx => by omega, fun hx => by omega⟩, ⟨fun _ => he.symm, fun _ => rfl⟩⟩
  · rw [if_neg (by omega), if_pos hg]
    exact ⟨⟨fun hx => by omega, fun hx => by omega⟩, ⟨fun hx => by omega, fun hx => by omega⟩⟩

/-- C5 witness: the amended statement applied to two concrete pair
hands. -/
theorem c5_amended_witness :
    (evaluateHand [Card.mk .spades .king, Card.mk .hearts .king, Card.mk .diamonds .five,
        Card.mk .clubs .four, Card.mk .spades .three] []).rank =
      (evaluateHand [Card.mk .spades .two, Card.mk .hearts .two, Card.mk .diamonds .ace,
        Card.mk .clubs .seven, Card.mk .spades .six] []).rank ∧
    (compareHands
        [Card.mk .spades .king, Card.mk .hearts .king, Card.mk .diamonds .five,
         Card.mk .clubs .four, Card.mk .spades .three]
        [Card.mk .spades .two, Card.mk .hearts .two, Card.mk .diamonds .ace,
         Card.mk .clubs .seven, Card.mk .spades .six] [] = 1 ↔
      (evaluateHand [Card.mk .spades .two, Card.mk .hearts .two, Card.mk .diamonds .ace,
          Card.mk .clubs .seven, Card.mk .spades .six] []).high <
        (evaluateHand [Card.mk .spades .king, Card.mk .hearts .king, Card.mk .diamonds .five,
          Card.mk .clubs .four, Card.mk .spades .three] []).high) :=
  ⟨by decide, (c5_amended _ _ _ (by decide)).1⟩

/-- C10: the public evaluator is total on fewer than 5 cards — it
evaluates the concatenated hole+community list directly — and any two
same-suited cards already count as a flush (rank 5), since the flush
test only asks that all suits in the input coincide; this is exactly
the hand strength reported pre-flop for suited hole cards. -/
theorem c10_small_inputs_and_suited_flush :
    (∀ holeCards community : List Card, (holeCards ++ community).length < 5 →
        evaluateHand holeCards community = evaluate5CardHand (holeCards ++ community)) ∧
    (∀ a b : Card, a.suit = b.suit → (evaluate5CardHand [a, b]).rank = 5) := by
  constructor
  · intro holeCards community hlen
    unfold evaluateHand
    rw [if_pos hlen]
  · intro a b hsuit
    simp only [evaluate5CardHand, List.map_cons, List.map_nil]
    have hsuits : (([a.suit, b.suit] : List Suit).dedup.length == 1) = true := by
      rw [hsuit]
      simp [List.dedup_cons_of_mem]
    have hvlen : (insertionSortDesc [getCardValue a, getCardValue b]).length = 2 :=
      (insertionSortDesc_perm _).length_eq
    have hcnt : ∀ v, List.count v (insertionSortDesc [getCardValue a, getCardValue b]) ≤ 2 := by
      intro v
      have := List.count_le_length v (insertionSortDesc [getCardValue a, getCardValue b])
      omega
    have h3 : ((insertionSortDesc [getCardValue a, getCardValue b]).dedup.any
        (fun v => List.count v (insertionSortDesc [getCardValue a, getCardValue b]) == 3)) = false := by
      rw [List.any_eq_false]
      intro v _
      have := hcnt v
      simp only [beq_iff_eq]
      omega
    have h4 : ((insertionSortDesc [getCardValue a, getCardValue b]).dedup.any
        (fun v => List.count v (insertionSortDesc [getCardValue a, getCardValue b]) == 4)) = false := by
      rw [List.any_eq_false]
      intro v _
      have := hcnt v
      simp only [beq_iff_eq]
      omega
    have hstr : ¬ (5 ≤ (insertionSortDesc [getCardValue a, getCardValue b]).dedup.length) := by
      have := List.Sublist.length_le
        ((insertionSortDesc [getCardValue a, getCardValue b]).dedup_sublist)
      omega
    rw [hsuits, h3, h4, if_neg hstr]
    simp

/-- C10 witness: one 1-card input evaluated directly, one suited
2-card flush. -/
theorem c10_witness :
    evaluateHand [Card.mk .spades .ace] [] = evaluate5CardHand ([Card.mk .spades .ace] ++ []) ∧
    (evaluate5CardHand [Card.mk .spades .ace, Card.mk .spades .nine]).rank = 5 :=
  ⟨c10_small_inputs_and_suited_flush.1 [Card.mk .spades .ace] [] (by decide),
   c10_small_inputs_and_suited_flush.2 (Card.mk .spades .ace) (Card.mk .spades .nine) rfl⟩

/-- C3 counterexample: with stacks human = 1000 and opponents
[900, 900, 900, 1000] the session is scored a WIN for the human even
though the human is not strictly above every opponent (it ties the
fourth opponent for the maximum) — the claim requires a loss on any tie
for the maximum. -/
theorem c3_counterexample :
    endGamePlayerWon (some 1000) [some 900, some 900, some 900, some 1000] = true ∧
    ¬ (∀ o ∈ [(900 : Int), 900, 900, 1000], o < 1000) := by
  decide

/-- C3 amended: the session is scored a win for the human iff the human
strictly exceeds the first three opponents' stacks and is merely ≥ the
fourth opponent's stack (the `endGame` comparison omits the fourth
opponent from its strict tests, so a tie with only that opponent still
counts as a win); every other case is a loss. -/
theorem c3_amended (p a b c d : Int) :
    endGamePlayerWon (some p) [some a, some b, some c, some d] = true ↔
      a < p ∧ b < p ∧ c < p ∧ d ≤ p := by
  have e0 : jsIdx [some a, some b, some c, some d] 0 = some a := rfl
  have e1 : jsIdx [some a, some b, some c, some d] 1 = some b := rfl
  have e2 : jsIdx [some a, some b, some c, some d] 2 = some c := rfl
  have ef : List.foldl jmax (some p) [some a, some b, some c, some d]
      = some (max (max (max (max p a) b) c) d) := rfl
  simp only [endGamePlayerWon, e0, e1, e2, ef, jeqStrict, jgt, Bool.and_eq_true,
    beq_iff_eq, decide_eq_true_eq, gt_iff_lt]
  constructor
  · rintro ⟨⟨⟨hmax, ha⟩, hb⟩, hc⟩
    have hd : d ≤ max (max (max (max p a) b) c) d := le_max_right _ _
    rw [← hmax] at hd
    exact ⟨ha, hb, hc, hd⟩
  · rintro ⟨ha, hb, hc, hd⟩
    have h1 : max p a = p := max_eq_left ha.le
    have h2 : max (max p a) b = p := by rw [h1]; exact max_eq_left hb.le
    have h3 : max (max (max p a) b) c = p := by rw [h2]; exact max_eq_left hc.le
    have h4 : max (max (max (max p a) b) c) d = p := by rw [h3]; exact max_eq_left hd
    exact ⟨⟨⟨h4.symm, ha⟩, hb⟩, hc⟩

/-- `endRound` only changes `currentPlayer` and the winner's chips;
deck, stage and the bet trackers survive it. -/
theorem endRound_fields (s0 s : PokerState) :
    (endRound s0 s).deck = s.deck ∧
    (endRound s0 s).bettingStage = s.bettingStage ∧
    (endRound s0 s).currentBet = s.currentBet ∧
    (endRound s0 s).playerBetThisRound = s.playerBetThisRound ∧
    (endRound s0 s).opponentBetsThisRound = s.opponentBetsThisRound := by
  unfold endRound
  split
  · exact ⟨rfl, rfl, rfl, rfl, rfl⟩
  · split <;> exact ⟨rfl, rfl, rfl, rfl, rfl⟩

/-- JS `===` on two modelled numbers holds exactly when both are the
same genuine integer. -/
theorem jeqStrict_iff (x y : JSNum) :
    jeqStrict x y = true ↔ ∃ n : Int, x = some n ∧ y = some n := by
  cases x <;> cases y
  · simp [jeqStrict]
  · simp [jeqStrict]
  · simp [jeqStrict]
  · simp only [jeqStrict, beq_iff_eq, Option.some.injEq]
    exact ⟨fun h => ⟨_, h, rfl⟩, fun ⟨n, h1, h2⟩ => h1.trans h2.symm⟩

/-- C2 counterexample: a reachable flop state (blinds, pre-flop all
call, flop checked around) in which no seat is folded and no seat has
committed a single chip this stage — every stack still equals its
flop-start value of 980 — yet `checkBetsEqual` reports the stage
incomplete, because the stage transition reset the per-stage records to
a 3-element array and the fourth opponent's missing record never
compares equal.  The claim's "complete exactly when every non-folded
seat's committed-this-stage amount is equal" is therefore false on the
code. -/
theorem c2_counterexample :
    (runSteps (startRound fullDeck startGameState) betsStuckActs).isSome = true ∧
    betsStuckState.bettingStage = .flop ∧
    betsStuckState.foldedPlayers = [false, false, false, false, false] ∧
    flopStartState.playerChips = some 980 ∧
    flopStartState.opponentChips = [some 980, some 980, some 980, some 980] ∧
    betsStuckState.playerChips = some 980 ∧
    betsStuckState.opponentChips = [some 980, some 980, some 980, some 980] ∧
    checkBetsEqual betsStuckState.foldedPlayers betsStuckState.playerBetThisRound
      betsStuckState.opponentBetsThisRound = false := by
  decide

/-- C2 amended: the stage-completion check reports complete exactly
when at most one seat is unfolded, or every unfolded OPPONENT's
recorded per-stage bet is a genuine number equal to the HUMAN's
recorded per-stage bet (the human's record is the reference even when
the human folded, and a missing or NaN record never compares equal);
and on completion the human's and the first three opponents' records
are reset to zero while the fourth opponent's record is dropped (it
reads back as `undefined`). -/
theorem c2_amended :
    (∀ (folded : List Bool) (playerBet : JSNum) (oppBets : List JSNum),
        folded.length = 5 →
        (checkBetsEqual folded playerBet oppBets = true ↔
          ((folded.map (fun f => !f)).filter (fun b => b)).length ≤ 1 ∨
            ∀ i < 4, folded.getD (i + 1) false = true ∨
              ∃ n : Int, jsIdx oppBets i = some n ∧ playerBet = some n)) ∧
    (∀ s0 s : PokerState,
        (nextBettingStage s0 s).currentBet = some 0 ∧
        (nextBettingStage s0 s).playerBetThisRound = some 0 ∧
        (nextBettingStage s0 s).opponentBetsThisRound = [some 0, some 0, some 0] ∧
        jsIdx (nextBettingStage s0 s).opponentBetsThisRound 3 = none) := by
  constructor
  · intro folded playerBet oppBets h5
    unfold checkBetsEqual
    by_cases hle : ((folded.map (fun f => !f)).filter (fun b => b)).length ≤ 1
    · simp only [if_pos hle]
      exact ⟨fun _ => Or.inl hle, fun _ => trivial⟩
    · rw [if_neg hle]
      have hact : ∀ i : Nat, i < 4 →
          (folded.map (fun f => !f)).getD (i + 1) false = !(folded.getD (i + 1) false) := by
        intro i hi
        have hlt : i + 1 < folded.length := by omega
        rw [List.getD_eq_getElem?_getD, List.getElem?_map,
          List.getD_eq_getElem?_getD, List.getElem?_eq_getElem hlt]
        rfl
      simp only [List.all_eq_true, List.mem_range]
      constructor
      · intro h
        refine Or.inr fun i hi => ?_
        have hh := h i hi
        rw [hact i hi] at hh
        by_cases hf : folded.getD (i + 1) false = true
        · exact Or.inl hf
        · have hf2 : folded.getD (i + 1) false = false := by
            simpa using hf
          rw [hf2] at hh
          simp only [Bool.not_false, Bool.true_and, Bool.not_eq_true'] at hh
          have hjeq : jeqStrict (jsIdx oppBets i) playerBet = true := by
            have hb : (!jeqStrict (jsIdx oppBets i) playerBet) = false := hh
            simpa using hb
          exact Or.inr ((jeqStrict_iff _ _).mp hjeq)
      · intro h i hi
        rcases h with hle2 | hall
        · exact absurd hle2 hle
        · rw [hact i hi]
          rcases hall i hi with hf | ⟨n, hx, hy⟩
          · rw [hf]
            rfl
          · have hjner : jneq (jsIdx oppBets i) playerBet = false := by
              unfold jneq
              rw [(jeqStrict_iff _ _).mpr ⟨n, hx, hy⟩]
              rfl
            rw [hjner, Bool.and_false]
            rfl
  · intro s0 s
    unfold nextBettingStage
    rcases s0.bettingStage with _ | _ | _ | _
    · exact ⟨rfl, rfl, rfl, rfl⟩
    · exact ⟨rfl, rfl, rfl, rfl⟩
    · exact ⟨rfl, rfl, rfl, rfl⟩
    · obtain ⟨_, _, h3, h4, h5⟩ := endRound_fields s0
        { s with currentBet := some 0, playerBetThisRound := some 0,
                 opponentBetsThisRound := [some 0, some 0, some 0], currentPlayer := 0 }
      exact ⟨h3, h4, by rw [h5], by rw [h5]; rfl⟩

/-- C2 witness: the amended characterisation instantiated at a concrete
betting state and the reset facts at a concrete state pair. -/
theorem c2_amended_witness :
    ([false, true, false, false, false] : List Bool).length = 5 ∧
    (checkBetsEqual [false, true, false, false, false] (some 20)
        [some 0, some 20, some 20, some 20] = true ↔
      ((([false, true, false, false, false] : List Bool).map (fun f => !f)).filter
          (fun b => b)).length ≤ 1 ∨
        ∀ i < 4, ([false, true, false, false, false] : List Bool).getD (i + 1) false = true ∨
          ∃ n : Int, jsIdx [some 0, some 20, some 20, some 20] i = some n ∧
            (some 20 : JSNum) = some n) ∧
    (nextBettingStage startGameState startGameState).opponentBetsThisRound
      = [some 0, some 0, some 0] ∧
    jsIdx (nextBettingStage startGameState startGameState).opponentBetsThisRound 3 = none :=
  ⟨rfl, c2_amended.1 _ _ _ rfl,
   (c2_amended.2 startGameState startGameState).2.2.1,
   (c2_amended.2 startGameState startGameState).2.2.2⟩

/-- C1 (code bug): on the reachable hand where everyone calls pre-flop,
the flop is checked to seat 4 and seat 4 raises, the pot stops being any
integer at all — seat 4's per-stage record was dropped by the buggy
3-element reset in `nextBettingStage`, its raise debit is
`20 - undefined = NaN`, and `pot += NaN` is NaN.  Before that raise the
invariant held (pot 100 = sum of the five seats' commitments); after
it, neither the pot nor the committed sum is a number, so "pot equals
the sum of all seats' committed chips" fails at this operation. -/
theorem c1_pot_not_committed_sum :
    (runSteps (startRound fullDeck startGameState) potNaNActs).isSome = true ∧
    flopStartState.pot = some 100 ∧
    committedSumFrom (some 1000) [some 1000, some 1000, some 1000, some 1000] flopStartState
      = some 100 ∧
    potNaNState.pot = none ∧
    committedSumFrom (some 1000) [some 1000, some 1000, some 1000, some 1000] potNaNState
      = none := by
  decide

/-- C6 (code bug): after the same reachable flop raise by seat 4, the
fourth opponent's chip stack is NaN — not a non-negative integer — so
"every seat's stack is a non-negative integer after every operation"
fails on the code. -/
theorem c6_stack_not_nonneg_integer :
    (runSteps (startRound fullDeck startGameState) potNaNActs).isSome = true ∧
    jsIdx potNaNState.opponentChips 3 = none ∧
    ¬ ∃ n : Int, 0 ≤ n ∧ jsIdx potNaNState.opponentChips 3 = some n := by
  refine ⟨by decide, by decide, ?_⟩
  rintro ⟨n, -, hn⟩
  rw [show jsIdx potNaNState.opponentChips 3 = none from by decide] at hn
  exact Option.noConfusion hn

/-- C7 counterexample: a full hand reaching the river removes 18 cards
from the 52-card deck (10 hole cards plus a burn card before each of
the three community deals), exceeding the claim's bound of
2×5 + 5 = 15. -/
theorem c7_counterexample :
    (runSteps (startRound fullDeck startGameState) burnActs).isSome = true ∧
    burnState.bettingStage = .river ∧
    burnState.deck.length = 34 ∧
    52 - burnState.deck.length = 18 ∧
    ¬ (52 - burnState.deck.length ≤ 15) := by
  decide

/-- `popMany` removes exactly `n` cards. -/
theorem popMany_length (n : Nat) : ∀ d : List Card, ((popMany n d).2).length = d.length - n := by
  induction n with
  | zero => intro d; rfl
  | succ n ih =>
    intro d
    show ((popMany n d.dropLast).2).length = d.length - (n + 1)
    rw [ih, List.length_dropLast]
    omega

/-- `endRound` preserves the deck/stage invariant. -/
theorem endRound_deckInv (s0 s : PokerState) (hInv : DeckInv s) : DeckInv (endRound s0 s) := by
  unfold DeckInv
  rw [(endRound_fields s0 s).1, (endRound_fields s0 s).2.1]
  exact hInv

/-- `nextBettingStage` advances the stage and shortens the deck
together, preserving the invariant. -/
theorem nextBettingStage_deckInv (s0 s : PokerState)
    (hd : s.deck = s0.deck) (hst : s.bettingStage = s0.bettingStage)
    (hInv : DeckInv s) : DeckInv (nextBettingStage s0 s) := by
  unfold DeckInv at hInv ⊢
  unfold nextBettingStage
  rw [← hst]
  rcases hstage : s.bettingStage with _ | _ | _ | _ <;> rw [hstage] at hInv
  · show ((popMany 4 s0.deck).2).length = 38
    rw [popMany_length, ← hd, hInv]
    decide
  · show ((popMany 2 s0.deck).2).length = 36
    rw [popMany_length, ← hd, hInv]
    decide
  · show ((popMany 2 s0.deck).2).length = 34
    rw [popMany_length, ← hd, hInv]
    decide
  · exact endRound_deckInv s0 _ hInv

/-- `nextPlayer` preserves the deck/stage invariant. -/
theorem nextPlayer_deckInv (s0 s : PokerState) (last : Nat)
    (hd : s.deck = s0.deck) (hst : s.bettingStage = s0.bettingStage)
    (hInv : DeckInv s) : DeckInv (nextPlayer s0 s last) := by
  unfold nextPlayer
  split_ifs <;>
    first
      | exact endRound_deckInv s0 s hInv
      | exact nextBettingStage_deckInv s0 s hd hst hInv
      | exact hInv
      | (split
         · exact hInv
         · exact endRound_deckInv s0 s hInv)

/-- `playerFold` preserves the deck/stage invariant. -/
theorem playerFold_deckInv (s : PokerState) (hInv : DeckInv s) : DeckInv (playerFold s) := by
  unfold playerFold
  exact nextPlayer_deckInv s _ 0 rfl rfl hInv

/-- `playerCall` preserves the deck/stage invariant. -/
theorem playerCall_deckInv (s : PokerState) (hInv : DeckInv s) : DeckInv (playerCall s) := by
  simp only [playerCall]
  split_ifs
  · exact hInv
  · exact nextPlayer_deckInv s _ 0 rfl rfl hInv

/-- `playerRaise` preserves the deck/stage invariant. -/
theorem playerRaise_deckInv (s : PokerState) (hInv : DeckInv s) : DeckInv (playerRaise s) := by
  simp only [playerRaise]
  split_ifs
  · exact hInv
  · exact nextPlayer_deckInv s _ 0 rfl rfl hInv

/-- `opponentAction` preserves the deck/stage invariant for every
provider decision. -/
theorem opponentActionStep_deckInv (s : PokerState) (d : OppDecision) (hInv : DeckInv s) :
    DeckInv (opponentActionStep s d) := by
  cases d <;> simp only [opponentActionStep] <;> split_ifs <;>
    first
      | exact hInv
      | exact nextPlayer_deckInv s _ _ rfl rfl hInv
      | exact endRound_deckInv s _ (nextPlayer_deckInv s _ _ rfl rfl hInv)

/-- Every legal in-hand action preserves the deck/stage invariant. -/
theorem step_deckInv {s t : PokerState} (a : Act) (h : step s a = some t) (hInv : DeckInv s) :
    DeckInv t := by
  cases a with
  | pFold =>
    simp only [step] at h
    split_ifs at h
    obtain rfl := Option.some.inj h
    exact playerFold_deckInv s hInv
  | pCall =>
    simp only [step] at h
    split_ifs at h
    obtain rfl := Option.some.inj h
    exact playerCall_deckInv s hInv
  | pRaise =>
    simp only [step] at h
    split_ifs at h
    obtain rfl := Option.some.inj h
    exact playerRaise_deckInv s hInv
  | oppAct d =>
    simp only [step] at h
    split_ifs at h
    obtain rfl := Option.some.inj h
    exact opponentActionStep_deckInv s d hInv

/-- `startRound` establishes the invariant: 52 − 10 hole cards = 42. -/
theorem startRound_deckInv (newDeck : List Card) (s : PokerState) (hlen : newDeck.length = 52) :
    DeckInv (startRound newDeck s) := by
  unfold DeckInv startRound
  show ((popMany 10 newDeck).2).length = stageDeckLen .preflop
  rw [popMany_length, hlen]
  rfl

/-- The deck/stage invariant holds in every state reachable within a
hand. -/
theorem handReach_deckInv {s t : PokerState} (h : handReach s t) (hInv : DeckInv s) : DeckInv t := by
  induction h with
  | refl => exact hInv
  | tail h1 h2 ih =>
    obtain ⟨a, ha⟩ := h2
    exact step_deckInv a ha ih

/-- C7 amended: within any single hand started from a full 52-card
deck, at most 2×5 + 3 + 5 = 18 cards are ever removed from the deck
(the extra 3 are the burn cards), so a draw from an empty deck never
occurs during a hand. -/
theorem c7_amended (newDeck : List Card) (s0 t : PokerState)
    (hlen : newDeck.length = 52) (h : handReach (startRound newDeck s0) t) :
    52 - t.deck.length ≤ 18 := by
  have hInv := handReach_deckInv h (startRound_deckInv newDeck s0 hlen)
  unfold DeckInv at hInv
  rw [hInv]
  rcases t.bettingStage <;> simp [stageDeckLen]

/-- C7 witness: the amended bound applied to the hand-start state of a
concrete deck. -/
theorem c7_amended_witness :
    fullDeck.length = 52 ∧
    52 - ((startRound fullDeck startGameState).deck.length) ≤ 18 :=
  ⟨by decide, c7_amended fullDeck startGameState _ (by decide) Relation.ReflTransGen.refl⟩

/-- C9: (i) with an API key present, a provider response that is not
valid JSON is recovered by scanning for a bracketed FOLD/CALL/RAISE
keyword, (ii) the scan's default when no keyword is found is "CALL",
and (iii) with credentials missing, `callLLMWithRetry` ignores the
network entirely and returns the `{ response: mock, isAI: false }`
wrapper whose absent `action` field makes `opponentAction`'s
`result.action.toLowerCase()` throw, landing in the deterministic
`catch` fallback (`toDecision` yields the `dError` branch: call with
any made hand and enough chips, else fold) — the game never fails. -/
theorem c9_provider_fallbacks :
    (∀ (apiKey : String) (jsonParse : String → Option ParsedLLM)
        (messages : List String) (personality : Personality) (gameContext : GameContext)
        (rng : List ℚ) (s : String) (rest : List AttemptOutcome) (retries : Nat),
        jsonParse s = none →
        (callLLMWithRetry (some apiKey) jsonParse messages personality gameContext rng
            (.text s :: rest) (retries + 1)).action =
          some ((extractActionTag s).getD "CALL")) ∧
    (∀ s : String, extractActionTag s = none → (extractActionTag s).getD "CALL" = "CALL") ∧
    (∀ (jsonParse : String → Option ParsedLLM) (messages : List String)
        (personality : Personality) (gameContext : GameContext) (rng : List ℚ)
        (outcomes : List AttemptOutcome) (retries : Nat),
        callLLMWithRetry none jsonParse messages personality gameContext rng outcomes retries =
          { response := some (getMockResponse messages personality gameContext rng),
            thought_process := none, strategy := none, action := none, chat := none,
            isAI := false } ∧
        toDecision (callLLMWithRetry none jsonParse messages personality gameContext rng
            outcomes retries) = .dError) := by
  refine ⟨?_, ?_, ?_⟩
  · intro apiKey jsonParse messages personality gameContext rng s rest retries hjson
    simp only [callLLMWithRetry, llmAttemptLoop, List.headD, hjson]
  · intro s h
    rw [h]
    rfl
  · intro jsonParse messages personality gameContext rng outcomes retries
    exact ⟨rfl, rfl⟩

/-- C9 witness: the three parts instantiated with a concrete failing
parser, a keyword-bearing text, a keyword-free text, and a missing
key. -/
theorem c9_witness :
    ((fun _ : String => (none : Option ParsedLLM)) "fold? [RAISE]!" = none) ∧
    (callLLMWithRetry (some "k") (fun _ => none) []
        ⟨"Alex", "aggressive and confident", ["aggressive"], "raises a lot"⟩
        ⟨1, "pre-flop", [], some 1000, some 50, some 20, some 0, [], ⟨1, "pair", 13⟩⟩
        [] [.text "fold? [RAISE]!"] 3).action =
      some ((extractActionTag "fold? [RAISE]!").getD "CALL") ∧
    extractActionTag "fold? [RAISE]!" = some "RAISE" ∧
    extractActionTag "no bracketed tag" = none ∧
    (extractActionTag "no bracketed tag").getD "CALL" = "CALL" ∧
    (callLLMWithRetry none (fun _ => none) []
        ⟨"Alex", "aggressive and confident", ["aggressive"], "raises a lot"⟩
        ⟨1, "pre-flop", [], some 1000, some 50, some 20, some 0, [], ⟨1, "pair", 13⟩⟩
        [] [] 3 =
      { response := some (getMockResponse []
          ⟨"Alex", "aggressive and confident", ["aggressive"], "raises a lot"⟩
          ⟨1, "pre-flop", [], some 1000, some 50, some 20, some 0, [], ⟨1, "pair", 13⟩⟩ []),
        thought_process := none, strategy := none, action := none, chat := none,
        isAI := false }) ∧
    toDecision (callLLMWithRetry none (fun _ => none) []
        ⟨"Alex", "aggressive and confident", ["aggressive"], "raises a lot"⟩
        ⟨1, "pre-flop", [], some 1000, some 50, some 20, some 0, [], ⟨1, "pair", 13⟩⟩
        [] [] 3) = .dError :=
  ⟨rfl,
   c9_provider_fallbacks.1 "k" _ [] _ _ [] _ [] 2 rfl,
   by decide,
   by decide,
   c9_provider_fallbacks.2.1 _ (by decide),
   (c9_provider_fallbacks.2.2 _ [] _ _ [] [] 3).1,
   (c9_provider_fallbacks.2.2 _ [] _ _ [] [] 3).2⟩

end Poker
